import Mathlib

/- Verification of chicksha2.py, a model-repository integrity checker: it
fetches an authoritative manifest (filename to sha256/size) over HTTP, hashes
the locally present manifest files with a thread pool, reconciles local state
against the manifest, and, after operator confirmation, deletes mismatched
files and re-runs a full snapshot download. Python strings are modelled as
Lean strings, Python ints as Int (byte counts that are known non-negative as
Nat), dicts as association lists in insertion order, and exceptions as
explicit outcome constructors. -/

/- Python string primitives used by the script, modelled over the character
list so that they reduce definitionally. -/

/-- Python str.lower, character by character. -/
def pyLower (s : String) : String := String.mk (s.toList.map Char.toLower)

/-- Whether the first list is an initial segment of the second. -/
def beginsWith : List Char → List Char → Bool
  | [], _ => true
  | _ :: _, [] => false
  | a :: as, b :: bs => a == b && beginsWith as bs

/-- Python str.endswith. -/
def pyEndsWith (s suffixStr : String) : Bool :=
  beginsWith suffixStr.toList.reverse s.toList.reverse

/-- Whether needle occurs as a contiguous subsequence of the haystack. -/
def containsSeq (needle : List Char) : List Char → Bool
  | [] => needle.isEmpty
  | c :: rest => beginsWith needle (c :: rest) || containsSeq needle rest

/-- Python substring membership, the expression needle in hay for strings. -/
def pyIn (needle hay : String) : Bool := containsSeq needle.toList hay.toList

/- Digest Engine: calculate_local_sha256_and_size (chicksha2.py lines 43-56). -/

/-- State of one local file as observed by calculate_local_sha256_and_size:
os.path.getsize raises FileNotFoundError (absent), some other OS exception is
raised during getsize / open / the read loop (ioError), or the read completes,
observing content as the byte stream while os.path.getsize reported
reportedSize just before the read started. A concurrent writer can make
content.length differ from reportedSize; such a silent truncation raises no
exception in Python. -/
inductive FS where
  | absent : FS
  | ioError : FS
  | present (reportedSize : Nat) (content : List Nat) : FS
deriving DecidableEq

/-- chicksha2.py calculate_local_sha256_and_size: takes size from
os.path.getsize, streams the file through hashlib.sha256 in 64 KiB blocks,
and returns the lowercased hex digest with that size; FileNotFoundError gives
(None, -1) and any other exception gives ("error", -2). The sha256 hex digest
(hashlib is an external library) is abstracted as the pure function hash of
the observed byte stream; block boundaries do not affect a streamed hash. -/
def calculate_local_sha256_and_size (hash : List Nat → String) : FS → Option String × Int
  | FS.absent => (none, -1)
  | FS.ioError => (some "error", -2)
  | FS.present reportedSize content => (some (pyLower (hash content)), (reportedSize : Int))

/- Manifest Client: get_official_file_metadata (chicksha2.py lines 15-41). -/

/-- One element of data["Data"]["Files"]. Each field is some exactly when the
corresponding key (Name / Type / Sha256 / Size) is present in the JSON
object; f_info.get("Type") tolerates absence, while f_info["Name"],
f_info["Sha256"] and f_info["Size"] raise KeyError when absent. -/
structure ApiFile where
  name : Option String
  typ : Option String
  sha256 : Option String
  size : Option Int
deriving DecidableEq

/-- Parsed JSON body of the API response: code models data.get("Code") and
files is some exactly when "Data" in data and "Files" in data["Data"]. -/
structure ApiJson where
  code : Option Int
  files : Option (List ApiFile)
deriving DecidableEq

/-- Outcome of the HTTP GET plus response.json(): a
requests.exceptions.RequestException (covers transport errors and the
raise_for_status of a bad HTTP status), a json.JSONDecodeError, or a parsed
body. -/
inductive ApiResponse where
  | requestException : ApiResponse
  | jsonDecodeError : ApiResponse
  | body (j : ApiJson) : ApiResponse
deriving DecidableEq

/-- Result of get_official_file_metadata: the Python function returns None
(failure), returns a metadata dict (success, as an association list of
filename, lowercased sha256 digest, size in insertion order), or lets an
uncaught exception escape (raised). -/
inductive FetchResult where
  | failure : FetchResult
  | raised : FetchResult
  | success (metadata : List (String × String × Int)) : FetchResult
deriving DecidableEq

/-- Python dict assignment d[k] = v on an association list: overwrite in
place when the key exists, else append, preserving insertion order. -/
def assocSet (l : List (String × String × Int)) (k : String) (v : String × Int) :
    List (String × String × Int) :=
  match l with
  | [] => [(k, v)]
  | (k2, v2) :: rest => if k2 = k then (k, v) :: rest else (k2, v2) :: assocSet rest k v

/-- The loop over data["Data"]["Files"]: entries whose Type is not "blob" are
skipped; a blob entry contributes (Name, Sha256.lower(), Size) to the
metadata dict; a blob entry missing Name, Sha256 or Size raises KeyError,
modelled as Except.error. -/
def buildMeta : List ApiFile → List (String × String × Int) →
    Except Unit (List (String × String × Int))
  | [], acc => Except.ok acc
  | f :: rest, acc =>
      if f.typ = some "blob" then
        match f.name, f.sha256, f.size with
        | some nm, some sh, some sz => buildMeta rest (assocSet acc nm (pyLower sh, sz))
        | _, _, _ => Except.error ()
      else buildMeta rest acc

/-- chicksha2.py get_official_file_metadata: on a RequestException or
JSONDecodeError returns None; with a parsed body, requires Code == 200 and
the Data.Files listing, else returns None; otherwise builds the blob-only
metadata dict, during which a missing per-file key raises an uncaught
KeyError. -/
def get_official_file_metadata (resp : ApiResponse) : FetchResult :=
  match resp with
  | ApiResponse.requestException => FetchResult.failure
  | ApiResponse.jsonDecodeError => FetchResult.failure
  | ApiResponse.body j =>
      if j.code = some 200 then
        match j.files with
        | some fs =>
            match buildMeta fs [] with
            | Except.ok m => FetchResult.success m
            | Except.error _ => FetchResult.raised
        | none => FetchResult.failure
      else FetchResult.failure

/-- The failure modes the fetch code handles by returning None: transport
error, JSON decode error, status code other than 200, or a missing top-level
Data / Files field. -/
def handledFetchFailure : ApiResponse → Bool
  | ApiResponse.requestException => true
  | ApiResponse.jsonDecodeError => true
  | ApiResponse.body j => !(j.code == some 200 && j.files.isSome)

/- Concurrent Scanner and Reconciler (chicksha2.py lines 88-166). -/

/-- State of one manifest filename during the scan: absent at collection time
(os.path.exists false, line 95), present and digested by a worker that
observed file state fs, or present with the worker future itself raising so
that future.result() throws (line 126). -/
inductive FileState where
  | absent : FileState
  | presentScan (fs : FS) : FileState
  | presentRaised : FileState
deriving DecidableEq

/-- The entry stored in results for a filename: the digest engine pair for a
scanned file, or ("error_processing", -3) when future.result() raised (line
128). Files absent at collection are never submitted to the pool; that case
is given the digest engine's own not-found pair and is never consulted by the
main flow. -/
def resultsOf (hash : List Nat → String) (disk : String → FileState) (n : String) :
    Option String × Int :=
  match disk n with
  | FileState.absent => (none, -1)
  | FileState.presentScan fs => calculate_local_sha256_and_size hash fs
  | FileState.presentRaised => (some "error_processing", -3)

/-- chicksha2.py line 98: a missing file is flagged only when its name ends
with ".safetensors" or is exactly config.json, tokenizer.json or
model.safetensors.index.json. -/
def isCritical (filename : String) : Bool :=
  pyEndsWith filename ".safetensors" || filename == "config.json" ||
    filename == "tokenizer.json" || filename == "model.safetensors.index.json"

/-- Modelled from the spec: the critical-file allow-list as the spec words it,
a suffix/name list of *.safetensors, config.json, tokenizer.json and
*.index.json, for comparison with the isCritical check of the code. -/
def specCriticalFile (filename : String) : Bool :=
  pyEndsWith filename ".safetensors" || filename == "config.json" ||
    filename == "tokenizer.json" || pyEndsWith filename ".index.json"

/-- chicksha2.py lines 93-100, missing branch: iterate the manifest keys in
order; a name absent from the local directory that is critical contributes
(name, "Missing locally") to problematic_files. -/
def missingProblems (metadata : List (String × String × Int)) (disk : String → FileState) :
    List (String × String) :=
  (metadata.map Prod.fst).filterMap fun filename =>
    if disk filename = FileState.absent ∧ isCritical filename = true then
      some (filename, "Missing locally")
    else none

/-- chicksha2.py lines 93-96, present branch: the manifest keys that exist
locally, in manifest order; these are submitted to the worker pool. -/
def files_to_process (metadata : List (String × String × Int)) (disk : String → FileState) :
    List String :=
  (metadata.map Prod.fst).filter fun filename => decide (disk filename ≠ FileState.absent)

/-- chicksha2.py line 156: the f-string recorded on a size mismatch. -/
def sizeMismatchReason (localSize officialSize : Int) : String :=
  "Size MISMATCH (local: " ++ toString localSize ++ ", official: " ++
    toString officialSize ++ ")"

/-- chicksha2.py lines 146-160: the reason list accumulated for one file.
None means the file vanished between the exists check and the hash; the
sentinels "error" and "error_processing" mean a digest failure; otherwise
size and digest are compared independently, size first. -/
def validationReasons (localSha : Option String) (localSize : Int) (officialSha : String)
    (officialSize : Int) : List String :=
  match localSha with
  | none => ["Local file not found during hash calculation"]
  | some s =>
      if s = "error" ∨ s = "error_processing" then
        ["Error calculating local SHA256/Size"]
      else
        (if localSize = officialSize then [] else [sizeMismatchReason localSize officialSize]) ++
          (if s = officialSha then [] else ["SHA256 MISMATCH"])

/-- Python "; ".join. -/
def joinReasons : List String → String
  | [] => ""
  | [r] => r
  | r :: rs => r ++ "; " ++ joinReasons rs

/-- chicksha2.py lines 133-166, the validation loop: iterate results in
completion order (the parameter order); a filename not in the manifest is
skipped; a file with a non-empty reason list contributes
(filename, "; ".join(reason)) to problematic_files. -/
def validationProblems (metadata : List (String × String × Int))
    (results : String → Option String × Int) (order : List String) :
    List (String × String) :=
  order.filterMap fun filename =>
    match List.lookup filename metadata with
    | none => none
    | some (osha, osize) =>
        if validationReasons (results filename).1 (results filename).2 osha osize = [] then
          none
        else
          some (filename,
            joinReasons (validationReasons (results filename).1 (results filename).2 osha osize))

/-- The full problematic_files list of a run: missing-file entries collected
first (lines 93-100), then validation-loop entries appended in completion
order (lines 133-166). -/
def problematic_files (hash : List Nat → String) (metadata : List (String × String × Int))
    (disk : String → FileState) (order : List String) : List (String × String) :=
  missingProblems metadata disk ++ validationProblems metadata (resultsOf hash disk) order

/-- chicksha2.py lines 169 and 207: the run declares all files valid exactly
when problematic_files stayed empty. -/
def overall_valid (hash : List Nat → String) (metadata : List (String × String × Int))
    (disk : String → FileState) (order : List String) : Bool :=
  (problematic_files hash metadata disk order).isEmpty

/-- A scan-result digest component that signals a per-file error: Python
None, "error", or "error_processing". -/
def isErrorDigest : Option String → Bool
  | none => true
  | some s => s == "error" || s == "error_processing"

/- Repair Coordinator (chicksha2.py lines 169-205). -/

/-- chicksha2.py lines 177-182: the problem files collected for removal — any
entry whose reason text does not contain the substring "Missing locally" and
whose path still exists. -/
def files_to_remove_for_redownload (problems : List (String × String))
    (existsNow : String → Bool) : List String :=
  problems.filterMap fun p =>
    if pyIn "Missing locally" p.2 = true then none
    else if existsNow p.1 = true then some p.1 else none

/-- What the repair branch did: the file paths os.remove was called on, and
whether attempt_redownload (the snapshot fetcher) was invoked. -/
structure RepairOutcome where
  removed : List String
  redownloadInvoked : Bool
deriving DecidableEq

/-- chicksha2.py lines 169-205: with no problems the branch is skipped; the
first prompt (line 175) gates the whole repair; with a non-empty removal list
a second prompt (line 188) gates the actual deletions followed by the
re-download; with an empty removal list but some missing file the re-download
is invoked without deletions; otherwise nothing happens. -/
def repairPhase (problems : List (String × String)) (existsNow : String → Bool)
    (confirmRemove confirmExecute : Bool) : RepairOutcome :=
  if problems = [] then ⟨[], false⟩
  else if confirmRemove = true then
    if files_to_remove_for_redownload problems existsNow = [] then
      if (problems.any fun p => pyIn "Missing locally" p.2) = true then ⟨[], true⟩
      else ⟨[], false⟩
    else if confirmExecute = true then
      ⟨files_to_remove_for_redownload problems existsNow, true⟩
    else ⟨[], false⟩
  else ⟨[], false⟩

/-- Outcome of one whole run of the script: exit(1) because the local
directory is missing; exit(1) because the manifest could not be fetched (or
was empty, which the falsiness test of line 84 also treats as a failure); a
crash from an exception escaping the fetch; or a completed run with the
files scanned, the problem list, the files removed and whether the fetcher
was invoked. -/
inductive RunResult where
  | crashed : RunResult
  | exitDirMissing : RunResult
  | exitNoManifest : RunResult
  | ran (scanned : List String) (problems : List (String × String))
      (removed : List String) (redownloadInvoked : Bool) : RunResult
deriving DecidableEq

/-- The files a run deleted. -/
def runRemoved : RunResult → List String
  | RunResult.ran _ _ removed _ => removed
  | _ => []

/-- chicksha2.py main block (lines 78-210): directory guard, manifest guard,
missing/present collection, the early branch when nothing is locally present
(lines 102-107, one prompt confirmEarly gating only a re-download), else the
scan, the validation loop over completion order, and the repair branch.
dirExists models os.path.exists(LOCAL_MODEL_DIR); disk models the local
directory; order is the completion order of the futures; existsAtRepair
models os.path.exists at removal-collection time. -/
def mainRun (dirExists : Bool) (resp : ApiResponse) (hash : List Nat → String)
    (disk : String → FileState) (order : List String) (existsAtRepair : String → Bool)
    (confirmEarly confirmRemove confirmExecute : Bool) : RunResult :=
  if dirExists = false then RunResult.exitDirMissing
  else
    match get_official_file_metadata resp with
    | FetchResult.raised => RunResult.crashed
    | FetchResult.failure => RunResult.exitNoManifest
    | FetchResult.success metadata =>
        if metadata = [] then RunResult.exitNoManifest
        else if files_to_process metadata disk = [] then
          RunResult.ran [] (missingProblems metadata disk) []
            (if missingProblems metadata disk = [] then false else confirmEarly)
        else
          RunResult.ran (files_to_process metadata disk)
            (problematic_files hash metadata disk order)
            (repairPhase (problematic_files hash metadata disk order) existsAtRepair
              confirmRemove confirmExecute).removed
            (repairPhase (problematic_files hash metadata disk order) existsAtRepair
              confirmRemove confirmExecute).redownloadInvoked

/- Helper lemmas shared by the claim theorems. -/

/-- Permuted lists agree on emptiness. -/
theorem isEmpty_eq_of_perm {α : Type} {l1 l2 : List α} (h : List.Perm l1 l2) :
    l1.isEmpty = l2.isEmpty := by
  have hl := h.length_eq
  cases l1 <;> cases l2 <;> simp_all

/-- Membership in the missing-file problem entries, characterised. -/
theorem mem_missingProblems {metadata : List (String × String × Int)}
    {disk : String → FileState} {n r : String} :
    (n, r) ∈ missingProblems metadata disk ↔
      (n ∈ metadata.map Prod.fst ∧ disk n = FileState.absent ∧ isCritical n = true ∧
        r = "Missing locally") := by
  unfold missingProblems
  rw [List.mem_filterMap]
  constructor
  · rintro ⟨a, ha, hfa⟩
    split at hfa
    · rename_i hcond
      simp only [Option.some.injEq, Prod.mk.injEq] at hfa
      obtain ⟨rfl, rfl⟩ := hfa
      exact ⟨ha, hcond.1, hcond.2, rfl⟩
    · exact absurd hfa (by simp)
  · rintro ⟨hk, habs, hcrit, rfl⟩
    exact ⟨n, hk, by simp [habs, hcrit]⟩

/-- Membership in the validation-loop problem entries, characterised. -/
theorem mem_validationProblems {metadata : List (String × String × Int)}
    {results : String → Option String × Int} {order : List String} {n r : String} :
    (n, r) ∈ validationProblems metadata results order ↔
      (n ∈ order ∧ ∃ osha osize, List.lookup n metadata = some (osha, osize) ∧
        validationReasons (results n).1 (results n).2 osha osize ≠ [] ∧
        r = joinReasons (validationReasons (results n).1 (results n).2 osha osize)) := by
  unfold validationProblems
  rw [List.mem_filterMap]
  constructor
  · rintro ⟨a, ha, hfa⟩
    split at hfa
    · exact absurd hfa (by simp)
    · rename_i osha osize heq
      split at hfa
      · exact absurd hfa (by simp)
      · rename_i hne
        have hx := Option.some.inj hfa
        have h1 : a = n := congrArg Prod.fst hx
        subst h1
        exact ⟨ha, osha, osize, heq, hne, (congrArg Prod.snd hx).symm⟩
  · rintro ⟨hord, osha, osize, hl, hne, rfl⟩
    refine ⟨n, hord, ?_⟩
    rw [hl]
    simp [hne]

/-- C1 is refuted here: with the digest function abstracted as the length of
the observed stream rendered in decimal, a file whose filesystem-reported
size is 1 but whose observed byte stream is empty (truncated between getsize
and the read, which raises no exception) makes
calculate_local_sha256_and_size return (some "0", 1) — a digest over the
partial stream together with the stale reported size — and not the generic
ERROR pair (some "error", -2) the claim requires. -/
theorem truncated_read_not_error :
    List.length ([] : List Nat) < 1 ∧
    calculate_local_sha256_and_size (fun bytes => toString bytes.length) (FS.present 1 []) =
      (some "0", 1) ∧
    calculate_local_sha256_and_size (fun bytes => toString bytes.length) (FS.present 1 []) ≠
      (some "error", -2) :=
  ⟨by decide, by decide, by decide⟩

/-- C1 (amended): on every read that raises no exception the byte count
returned is exactly the filesystem-reported size captured by os.path.getsize
before reading; in particular, when the observed stream is shorter than that
reported size (mid-read truncation by a concurrent writer), the function
still returns the lowercased digest of the partial observed stream paired
with the stale pre-read size, and the generic ERROR pair arises only from a
raised I/O exception. -/
theorem digest_truncation_behavior (hash : List Nat → String) (sz : Nat) (content : List Nat)
    (htrunc : content.length < sz) :
    calculate_local_sha256_and_size hash (FS.present sz content) =
      (some (pyLower (hash content)), (sz : Int)) := rfl

/-- C1 amended-claim witness at a concrete truncated file. -/
theorem digest_truncation_behavior_witness :
    calculate_local_sha256_and_size (fun bytes => toString bytes.length) (FS.present 2 [7]) =
      (some (pyLower (toString (List.length [7]))), (2 : Int)) :=
  digest_truncation_behavior (fun bytes => toString bytes.length) 2 [7] (by decide)

/-- C2 is refuted here: the name "foo.index.json" matches the *.index.json
pattern of the claimed allow-list, is listed in the manifest, and is absent
locally, yet the code checks the exact name model.safetensors.index.json
rather than the suffix, so the run records no problem for it and still
declares the outcome valid. -/
theorem missing_index_json_not_flagged :
    specCriticalFile "foo.index.json" = true ∧
    isCritical "foo.index.json" = false ∧
    problematic_files (fun _ => "d") [("foo.index.json", "d", 1)]
      (fun _ => FileState.absent) [] = [] ∧
    overall_valid (fun _ => "d") [("foo.index.json", "d", 1)]
      (fun _ => FileState.absent) [] = true :=
  ⟨by decide, by decide, by decide, by decide⟩

/-- C2 (amended): with the allow-list the code actually enforces — suffix
".safetensors", or the exact names config.json, tokenizer.json,
model.safetensors.index.json — a manifest filename absent from the local
directory is classified Missing and appears in problematic_files exactly when
it matches that list, in which case the overall verdict is forced to invalid;
an absent filename outside the list never appears in problematic_files and
never blocks the overall verdict. -/
theorem missing_critical_classification
    (hash : List Nat → String) (metadata : List (String × String × Int))
    (disk : String → FileState) (order : List String) (n : String)
    (horder : ∀ m, m ∈ order → disk m ≠ FileState.absent)
    (hmem : n ∈ metadata.map Prod.fst)
    (habs : disk n = FileState.absent) :
    (((n, "Missing locally") ∈ problematic_files hash metadata disk order) ↔
      isCritical n = true) ∧
    (isCritical n = true → overall_valid hash metadata disk order = false) ∧
    (isCritical n = false → ∀ r, (n, r) ∉ problematic_files hash metadata disk order) := by
  have hnotvp : ∀ r, (n, r) ∉ validationProblems metadata (resultsOf hash disk) order := by
    intro r hmemv
    rcases mem_validationProblems.mp hmemv with ⟨hord, _⟩
    exact (horder n hord) habs
  refine ⟨⟨?_, ?_⟩, ?_, ?_⟩
  · intro hp
    rcases List.mem_append.mp hp with hm | hv
    · exact (mem_missingProblems.mp hm).2.2.1
    · exact absurd hv (hnotvp _)
  · intro hcrit
    exact List.mem_append.mpr (Or.inl (mem_missingProblems.mpr ⟨hmem, habs, hcrit, rfl⟩))
  · intro hcrit
    have hp : (n, "Missing locally") ∈ problematic_files hash metadata disk order :=
      List.mem_append.mpr (Or.inl (mem_missingProblems.mpr ⟨hmem, habs, hcrit, rfl⟩))
    unfold overall_valid
    cases hpf : problematic_files hash metadata disk order with
    | nil => rw [hpf] at hp; exact absurd hp (List.not_mem_nil _)
    | cons a t => rfl
  · intro hcrit r hp
    rcases List.mem_append.mp hp with hm | hv
    · have h2 := (mem_missingProblems.mp hm).2.2.1
      rw [hcrit] at h2
      cases h2
    · exact hnotvp r hv

/-- C2 amended-claim witness: an absent config.json forces the invalid
verdict. -/
theorem missing_critical_classification_witness :
    overall_valid (fun _ => "d") [("config.json", "d", 1)] (fun _ => FileState.absent) [] =
      false :=
  (missing_critical_classification (fun _ => "d") [("config.json", "d", 1)]
      (fun _ => FileState.absent) [] "config.json"
      (fun m hm => absurd hm (List.not_mem_nil m)) (by decide) rfl).2.1 (by decide)

/-- C3: a manifest file present locally whose scanned digest equals the
manifest digest under case-insensitive comparison (both sides lowercased, as
the code normalises the manifest digest at fetch time and the local digest at
hash time) and whose scanned size equals the manifest size exactly
accumulates no mismatch reason — the Valid verdict — and never appears in
problematic_files. The 64-hex-character digest length from the data model
rules out collision with the error sentinel strings. -/
theorem valid_file_never_in_problemset
    (hash : List Nat → String) (metadata : List (String × String × Int))
    (disk : String → FileState) (order : List String)
    (n raw : String) (sz : Nat) (content : List Nat)
    (hdisk : disk n = FileState.presentScan (FS.present sz content))
    (hmeta : List.lookup n metadata = some (pyLower raw, (sz : Int)))
    (hdg : pyLower (hash content) = pyLower raw)
    (hlen : (pyLower raw).length = 64) :
    validationReasons (some (pyLower (hash content))) (sz : Int) (pyLower raw) (sz : Int) =
      [] ∧
    ∀ r, (n, r) ∉ problematic_files hash metadata disk order := by
  have hs1 : pyLower (hash content) ≠ "error" := by
    intro h
    rw [hdg] at h
    rw [h] at hlen
    exact absurd hlen (by decide)
  have hs2 : pyLower (hash content) ≠ "error_processing" := by
    intro h
    rw [hdg] at h
    rw [h] at hlen
    exact absurd hlen (by decide)
  have hs1' : ¬(pyLower raw = "error") := hdg ▸ hs1
  have hs2' : ¬(pyLower raw = "error_processing") := hdg ▸ hs2
  have hreasons : validationReasons (some (pyLower (hash content))) (sz : Int) (pyLower raw)
      (sz : Int) = [] := by
    simp [validationReasons, hdg, hs1', hs2']
  refine ⟨hreasons, fun r hp => ?_⟩
  rcases List.mem_append.mp hp with hm | hv
  · have h2 := (mem_missingProblems.mp hm).2.1
    rw [hdisk] at h2
    cases h2
  · rcases mem_validationProblems.mp hv with ⟨_, osha, osize, hl, hne, _⟩
    have hres : resultsOf hash disk n = (some (pyLower (hash content)), (sz : Int)) := by
      unfold resultsOf
      rw [hdisk]
      rfl
    have he : (osha, osize) = (pyLower raw, (sz : Int)) :=
      Option.some.inj (hl.symm.trans hmeta)
    have ho1 : osha = pyLower raw := congrArg Prod.fst he
    have ho2 : osize = (sz : Int) := congrArg Prod.snd he
    rw [hres, ho1, ho2] at hne
    exact hne hreasons

/-- C3 witness at a concrete valid file. -/
theorem valid_file_never_in_problemset_witness :
    ("config.json", "Missing locally") ∉
      problematic_files
        (fun _ => "e3b0c44298fc1c149afbf4c8996fb92427ae41e4649b934ca495991b7852b855")
        [("config.json",
          pyLower "e3b0c44298fc1c149afbf4c8996fb92427ae41e4649b934ca495991b7852b855", 0)]
        (fun _ => FileState.presentScan (FS.present 0 [])) ["config.json"] :=
  (valid_file_never_in_problemset
      (fun _ => "e3b0c44298fc1c149afbf4c8996fb92427ae41e4649b934ca495991b7852b855")
      [("config.json",
        pyLower "e3b0c44298fc1c149afbf4c8996fb92427ae41e4649b934ca495991b7852b855", 0)]
      (fun _ => FileState.presentScan (FS.present 0 [])) ["config.json"]
      "config.json" "e3b0c44298fc1c149afbf4c8996fb92427ae41e4649b934ca495991b7852b855"
      0 [] rfl (by decide) rfl (by decide)).2 "Missing locally"

/-- C4: size and digest are compared to the manifest independently for a
successfully scanned file (digest present and not an error sentinel): a size
difference records the size-mismatch reason, a digest difference records the
digest-mismatch reason, and when both differ the problematic_files entry for
the file carries both reasons joined with "; ", not just the first. -/
theorem mismatch_reasons_independent
    (metadata : List (String × String × Int)) (results : String → Option String × Int)
    (order : List String) (n s osha : String) (lsize osize : Int)
    (hord : n ∈ order)
    (hl : List.lookup n metadata = some (osha, osize))
    (hres : results n = (some s, lsize))
    (hs1 : s ≠ "error") (hs2 : s ≠ "error_processing") :
    (lsize ≠ osize →
      sizeMismatchReason lsize osize ∈ validationReasons (some s) lsize osha osize) ∧
    (s ≠ osha → "SHA256 MISMATCH" ∈ validationReasons (some s) lsize osha osize) ∧
    (lsize ≠ osize → s ≠ osha →
      (n, sizeMismatchReason lsize osize ++ "; " ++ "SHA256 MISMATCH") ∈
        validationProblems metadata results order) := by
  refine ⟨?_, ?_, ?_⟩
  · intro hsz
    simp [validationReasons, hs1, hs2, hsz]
  · intro hsha
    simp [validationReasons, hs1, hs2, hsha]
  · intro hsz hsha
    have hreq : validationReasons (some s) lsize osha osize =
        [sizeMismatchReason lsize osize, "SHA256 MISMATCH"] := by
      simp [validationReasons, hs1, hs2, hsz, hsha]
    apply mem_validationProblems.mpr
    refine ⟨hord, osha, osize, hl, ?_, ?_⟩
    · simp only [hres]
      rw [hreq]
      simp
    · simp only [hres]
      rw [hreq]
      rfl

/-- C4 witness: a file differing in both size and digest gets a combined
entry with both reasons. -/
theorem mismatch_reasons_independent_witness :
    ("a", sizeMismatchReason 1 2 ++ "; " ++ "SHA256 MISMATCH") ∈
      validationProblems [("a", "bb", 2)] (fun _ => (some "aa", 1)) ["a"] :=
  (mismatch_reasons_independent [("a", "bb", 2)] (fun _ => (some "aa", 1)) ["a"]
      "a" "aa" "bb" 1 2 (by decide) (by decide) rfl (by decide) (by decide)).2.2
    (by decide) (by decide)

/-- C5: with the same per-file digest results, permuting the completion order
of the scan permutes the problem list (so the set of per-file verdicts is
unchanged) and leaves the overall validity verdict identical, because results
are reduced into a filename-keyed mapping before classification. -/
theorem verdict_order_independent
    (hash : List Nat → String) (metadata : List (String × String × Int))
    (disk : String → FileState) (order1 order2 : List String)
    (h : List.Perm order1 order2) :
    List.Perm (problematic_files hash metadata disk order1)
      (problematic_files hash metadata disk order2) ∧
    overall_valid hash metadata disk order1 = overall_valid hash metadata disk order2 := by
  have hv : List.Perm (validationProblems metadata (resultsOf hash disk) order1)
      (validationProblems metadata (resultsOf hash disk) order2) :=
    List.Perm.filterMap _ h
  have hp : List.Perm (problematic_files hash metadata disk order1)
      (problematic_files hash metadata disk order2) :=
    List.Perm.append_left _ hv
  exact ⟨hp, isEmpty_eq_of_perm hp⟩

/-- C5 witness: swapping the completion order of two files leaves the overall
verdict unchanged. -/
theorem verdict_order_independent_witness :
    overall_valid (fun _ => "d") [("a.safetensors", "d", 1), ("config.json", "d", 1)]
        (fun _ => FileState.presentRaised) ["a.safetensors", "config.json"] =
      overall_valid (fun _ => "d") [("a.safetensors", "d", 1), ("config.json", "d", 1)]
        (fun _ => FileState.presentRaised) ["config.json", "a.safetensors"] :=
  (verdict_order_independent (fun _ => "d")
      [("a.safetensors", "d", 1), ("config.json", "d", 1)]
      (fun _ => FileState.presentRaised) ["a.safetensors", "config.json"]
      ["config.json", "a.safetensors"]
      (List.Perm.swap "config.json" "a.safetensors" [])).2

/-- C6: the digest engine returns a pair in every modelled outcome instead of
raising — the NOT_FOUND pair (None, -1) exactly on a nonexistent path, the
generic ERROR pair ("error", -2) exactly on any other I/O failure, and a
present digest with the non-negative getsize value on success — and the only
way the whole run can crash is an exception escaping the manifest fetch,
never a per-file digest failure during the batch. -/
theorem digest_sentinel_contract (hash : List Nat → String) :
    calculate_local_sha256_and_size hash FS.absent = (none, -1) ∧
    calculate_local_sha256_and_size hash FS.ioError = (some "error", -2) ∧
    (∀ sz content, calculate_local_sha256_and_size hash (FS.present sz content) =
      (some (pyLower (hash content)), (sz : Int))) ∧
    (∀ dirExists resp disk order existsAtRepair c0 c1 c2,
      mainRun dirExists resp hash disk order existsAtRepair c0 c1 c2 = RunResult.crashed →
      get_official_file_metadata resp = FetchResult.raised) := by
  refine ⟨rfl, rfl, fun _ _ => rfl, ?_⟩
  intro dirExists resp disk order existsAtRepair c0 c1 c2 hcrash
  unfold mainRun at hcrash
  split at hcrash
  · exact absurd hcrash (by simp)
  · split at hcrash
    · rename_i heq
      exact heq
    · exact absurd hcrash (by simp)
    · split at hcrash
      · exact absurd hcrash (by simp)
      · split at hcrash
        · exact absurd hcrash (by simp)
        · exact absurd hcrash (by simp)

/-- C6 witness: the only crashing runs are fetch crashes, exercised at a
response whose blob entry lacks its Sha256 field. -/
theorem digest_sentinel_contract_witness :
    get_official_file_metadata
        (ApiResponse.body ⟨some 200, some [⟨some "a", some "blob", none, some 1⟩]⟩) =
      FetchResult.raised :=
  (digest_sentinel_contract (fun _ => "")).2.2.2 true
    (ApiResponse.body ⟨some 200, some [⟨some "a", some "blob", none, some 1⟩]⟩)
    (fun _ => FileState.absent) [] (fun _ => false) false false false (by decide)

/-- Negative answers at either repair gate leave the removal list empty. -/
theorem repairPhase_removed_nil (problems : List (String × String))
    (existsNow : String → Bool) (c1 c2 : Bool) (h : c1 = false ∨ c2 = false) :
    (repairPhase problems existsNow c1 c2).removed = [] := by
  unfold repairPhase
  split
  · rfl
  · split
    · rename_i hc1
      split
      · split
        · rfl
        · rfl
      · split
        · rename_i hc2
          rcases h with h | h
          · rw [h] at hc1; cases hc1
          · rw [h] at hc2; cases hc2
        · rfl
    · rfl

/-- C7: in every run, no file deletion is executed unless both the initial
repair prompt and the separate removal-confirmation prompt were answered
affirmatively; a negative answer at either gate means the run deletes zero
files (the early missing-only branch and the missing-only repair branch
never delete anything either). -/
theorem no_deletion_without_double_confirmation
    (dirExists : Bool) (resp : ApiResponse) (hash : List Nat → String)
    (disk : String → FileState) (order : List String) (existsAtRepair : String → Bool)
    (c0 c1 c2 : Bool) (h : c1 = false ∨ c2 = false) :
    runRemoved (mainRun dirExists resp hash disk order existsAtRepair c0 c1 c2) = [] := by
  unfold mainRun
  split
  · rfl
  · split
    · rfl
    · rfl
    · split
      · rfl
      · split
        · rfl
        · exact repairPhase_removed_nil _ _ _ _ h

/-- C7 witness: with the second gate answered no, nothing is removed. -/
theorem no_deletion_without_double_confirmation_witness :
    runRemoved (mainRun true ApiResponse.requestException (fun _ => "")
      (fun _ => FileState.absent) [] (fun _ => true) true true false) = [] :=
  no_deletion_without_double_confirmation true ApiResponse.requestException (fun _ => "")
    (fun _ => FileState.absent) [] (fun _ => true) true true false (Or.inr rfl)

/-- C8: every path the repair branch schedules for deletion comes from a
problem entry whose reason text does not contain "Missing locally" (and whose
path still exists), so a file classified Missing is never scheduled for
deletion; and when every problem entry is a Missing one, a run through the
repair branch removes nothing yet still invokes the repository fetcher. -/
theorem missing_never_scheduled_for_deletion
    (problems : List (String × String)) (existsNow : String → Bool) (c1 c2 : Bool) :
    (∀ n, n ∈ (repairPhase problems existsNow c1 c2).removed →
      ∃ r, (n, r) ∈ problems ∧ pyIn "Missing locally" r = false ∧ existsNow n = true) ∧
    (c1 = true → problems ≠ [] → (∀ p, p ∈ problems → p.2 = "Missing locally") →
      (repairPhase problems existsNow c1 c2).removed = [] ∧
      (repairPhase problems existsNow c1 c2).redownloadInvoked = true) := by
  constructor
  · intro n hn
    unfold repairPhase at hn
    split at hn
    · simp at hn
    · split at hn
      · split at hn
        · split at hn
          · simp at hn
          · simp at hn
        · split at hn
          · rcases List.mem_filterMap.mp hn with ⟨p, hp, hfp⟩
            split at hfp
            · exact absurd hfp (by simp)
            · split at hfp
              · rename_i hmiss hex
                have h1 : p.1 = n := Option.some.inj hfp
                subst h1
                refine ⟨p.2, ?_, ?_, hex⟩
                · rw [Prod.mk.eta]
                  exact hp
                · simpa using hmiss
              · exact absurd hfp (by simp)
          · simp at hn
      · simp at hn
  · intro hc1 hne hall
    have hcand : files_to_remove_for_redownload problems existsNow = [] := by
      apply List.filterMap_eq_nil_iff.mpr
      intro p hp
      have hm : pyIn "Missing locally" p.2 = true := by
        rw [hall p hp]
        decide
      rw [if_pos hm]
    have hany : (problems.any fun p => pyIn "Missing locally" p.2) = true := by
      cases problems with
      | nil => exact absurd rfl hne
      | cons p rest =>
          apply List.any_eq_true.mpr
          refine ⟨p, List.mem_cons_self p rest, ?_⟩
          rw [hall p (List.mem_cons_self p rest)]
          decide
    unfold repairPhase
    rw [if_neg hne, if_pos hc1, if_pos hcand, if_pos hany]
    exact ⟨rfl, rfl⟩

/-- C8 witness: a single Missing problem is not deleted but still triggers
the fetcher. -/
theorem missing_never_scheduled_for_deletion_witness :
    (repairPhase [("config.json", "Missing locally")] (fun _ => true) true true).removed =
      [] ∧
    (repairPhase [("config.json", "Missing locally")]
        (fun _ => true) true true).redownloadInvoked = true :=
  (missing_never_scheduled_for_deletion [("config.json", "Missing locally")]
      (fun _ => true) true true).2 rfl (by decide) (by decide)

/-- C9 is refuted here: a response with status code 200 whose blob file entry
lacks the Sha256 field makes the manifest fetch raise an uncaught KeyError
(neither except clause catches KeyError) instead of returning the distinct
failure value None, and the whole run crashes rather than terminating
cleanly. -/
theorem manifest_missing_field_raises :
    get_official_file_metadata
        (ApiResponse.body
          ⟨some 200, some [⟨some "a.safetensors", some "blob", none, some 1⟩]⟩) =
      FetchResult.raised ∧
    mainRun true
        (ApiResponse.body
          ⟨some 200, some [⟨some "a.safetensors", some "blob", none, some 1⟩]⟩)
        (fun _ => "") (fun _ => FileState.absent) [] (fun _ => false) false false false =
      RunResult.crashed :=
  ⟨by decide, by decide⟩

/-- C9 (amended): for the failure modes the fetch code actually guards —
transport error, JSON decode error, a status code other than 200, or a
missing top-level Data / Files field — the fetch returns the distinct failure
value None without raising, and the run then exits before any scan,
classification or repair action; a blob file entry missing one of its own
expected fields instead raises an uncaught KeyError (see the
counterexample). -/
theorem manifest_failure_aborts_run (resp : ApiResponse)
    (hfail : handledFetchFailure resp = true) :
    get_official_file_metadata resp = FetchResult.failure ∧
    ∀ hash disk order existsAtRepair c0 c1 c2,
      mainRun true resp hash disk order existsAtRepair c0 c1 c2 =
        RunResult.exitNoManifest := by
  have hf : get_official_file_metadata resp = FetchResult.failure := by
    cases resp with
    | requestException => rfl
    | jsonDecodeError => rfl
    | body j =>
        by_cases hcode : j.code = some 200
        · cases hfj : j.files with
          | none =>
              simp only [get_official_file_metadata]
              rw [if_pos hcode, hfj]
          | some fs =>
              exfalso
              simp only [handledFetchFailure] at hfail
              rw [hcode, hfj] at hfail
              simp at hfail
        · simp only [get_official_file_metadata]
          rw [if_neg hcode]
  refine ⟨hf, fun hash disk order existsAtRepair c0 c1 c2 => ?_⟩
  unfold mainRun
  rw [hf]
  rfl

/-- C9 amended-claim witness at a transport error. -/
theorem manifest_failure_aborts_run_witness :
    get_official_file_metadata ApiResponse.requestException = FetchResult.failure :=
  (manifest_failure_aborts_run ApiResponse.requestException rfl).1

/-- C10: a scan result whose digest component is an error sentinel — None,
"error", or the "error_processing" recorded with size -3 when a worker future
raises — always yields a non-empty reason list (never the Valid verdict), puts
the file into problematic_files, and forces the overall verdict to invalid;
contrapositively, an overall-valid run had no per-file scan error. -/
theorem scan_error_always_problem
    (hash : List Nat → String) (metadata : List (String × String × Int))
    (disk : String → FileState) (order : List String) (n osha : String) (osize : Int)
    (hord : n ∈ order)
    (hl : List.lookup n metadata = some (osha, osize))
    (herr : isErrorDigest (resultsOf hash disk n).1 = true) :
    validationReasons (resultsOf hash disk n).1 (resultsOf hash disk n).2 osha osize ≠
      [] ∧
    (∃ r, (n, r) ∈ problematic_files hash metadata disk order) ∧
    overall_valid hash metadata disk order = false := by
  have hne : validationReasons (resultsOf hash disk n).1 (resultsOf hash disk n).2 osha
      osize ≠ [] := by
    cases hd : (resultsOf hash disk n).1 with
    | none => simp [validationReasons]
    | some s =>
        rw [hd] at herr
        simp only [isErrorDigest, Bool.or_eq_true, beq_iff_eq] at herr
        rcases herr with h | h <;> simp [validationReasons, h]
  have hmem2 : (n, joinReasons (validationReasons (resultsOf hash disk n).1
      (resultsOf hash disk n).2 osha osize)) ∈ problematic_files hash metadata disk order :=
    List.mem_append.mpr
      (Or.inr (mem_validationProblems.mpr ⟨hord, osha, osize, hl, hne, rfl⟩))
  refine ⟨hne, ⟨_, hmem2⟩, ?_⟩
  unfold overall_valid
  cases hpf : problematic_files hash metadata disk order with
  | nil => rw [hpf] at hmem2; exact absurd hmem2 (List.not_mem_nil _)
  | cons a t => rfl

/-- C10 witness: a worker future that raised forces the invalid verdict. -/
theorem scan_error_always_problem_witness :
    overall_valid (fun _ => "d") [("a.safetensors", "d", 5)]
      (fun _ => FileState.presentRaised) ["a.safetensors"] = false :=
  (scan_error_always_problem (fun _ => "d") [("a.safetensors", "d", 5)]
      (fun _ => FileState.presentRaised) ["a.safetensors"] "a.safetensors" "d" 5
      (by decide) (by decide) (by decide)).2.2
